import Mathlib

/-!
Verification development for the extraction-checkpoint-batching engine of
`tap_mysql/sync_strategies/common.py` (pipelinewise-tap-mysql).

The Python source is shallowly embedded: pure helpers become Lean functions,
the stateful sync loop becomes an explicit trace of observable events
(message emissions, file writes, file opens/closes), fallible Python code
(exceptions: KeyError, IndexError, ZeroDivisionError, the backtick check in
`escape`) is modelled with `Option`/`Except`.  Machine values carried by rows
are modelled by the inductive `Value`; Python ints are unbounded so `Int` is
exact.
-/

set_option autoImplicit false
set_option maxHeartbeats 1000000

namespace TapMySql

/-- A driver-native cell value, as produced by the MySQL cursor.
`vDateTime` carries the string `datetime.isoformat()` would produce for the
value (the only observation the source makes of a datetime); `vDate`
likewise carries `date.isoformat()` (`YYYY-MM-DD`).  `vTimeDelta d s us`
is a normalized Python `timedelta`: `d` days (possibly negative),
`0 ≤ s < 86400` seconds, `0 ≤ us < 1000000` microseconds. -/
inductive Value where
  | vNull : Value
  | vInt : Int → Value
  | vStr : String → Value
  | vBytes : List Nat → Value
  | vBool : Bool → Value
  | vDateTime : String → Value
  | vDate : String → Value
  | vTimeDelta : Int → Nat → Nat → Value
  deriving DecidableEq

/-- A value stored in the bookmark (checkpoint) tree.  `BVal.none` stands for
an absent entry (Python's `dict.get` default `None`); `dict` is used for
`last_pk_fetched` / `max_pk_values` which are mappings. -/
inductive BVal where
  | none : BVal
  | val : Value → BVal
  | dict : List (String × Value) → BVal
  deriving DecidableEq

/-! ### Python dict model (string-keyed association lists)

Python dicts preserve insertion order; assigning to an existing key updates it
in place, assigning a fresh key appends.  `dlookup` is `d[k]` (first match),
`dictInsert` is `d[k] = v`. -/

/-- First-match lookup in an association list, Python `d.get(k)`. -/
def dlookup {α : Type} : List (String × α) → String → Option α
  | [], _ => Option.none
  | p :: ps, k => if p.1 = k then some p.2 else dlookup ps k

/-- Lookup with a default, Python `d.get(k, dflt)`. -/
def dlookupD {α : Type} (d : List (String × α)) (k : String) (dflt : α) : α :=
  (dlookup d k).getD dflt

/-- Python `d[k] = v`: update in place if the key exists, else append. -/
def dictInsert {α : Type} (d : List (String × α)) (k : String) (v : α) :
    List (String × α) :=
  if d.any (fun p => p.1 = k) then
    d.map (fun p => if p.1 = k then (k, v) else p)
  else
    d ++ [(k, v)]

/-- Building a Python dict from a list of key/value pairs (`dict(zip(...))`):
later duplicates overwrite earlier ones. -/
def pyDict (ps : List (String × Value)) : List (String × Value) :=
  ps.foldl (fun d p => dictInsert d p.1 p.2) []

/-! ### Catalog / schema data -/

/-- Per-column JSON-schema metadata: `catalog_entry.schema.properties[col]`.
`type` is the declared type list (a plain string type is modelled as a
one-element list), `format` the optional format tag. -/
structure ColumnProp where
  type : List String
  format : Option String
  deriving DecidableEq

/-- The slice of a `catalog_entry` the engine reads.  `databaseName` models
`metadata.to_map(...)[()]['database-name']` (via `get_database_name`) and
`replicationMethod` models `stream_metadata.get('replication-method')`. -/
structure CatalogEntry where
  stream : String
  table : String
  databaseName : String
  tapStreamId : String
  schemaProps : List (String × ColumnProp)
  keyProperties : List String
  replicationMethod : Option String
  deriving DecidableEq

/-- Modelled from the spec: `get_key_properties` lives in
`tap_mysql.stream_utils` (not under `src/`); per the spec the Stream
descriptor carries "key-property column names", which we store on the
catalog entry. -/
def get_key_properties (ce : CatalogEntry) : List String :=
  ce.keyProperties

/-! ### escape / generate_select_sql (Projection Builder) -/

/-- The backtick character, MySQL's identifier delimiter. -/
def backtick : Char := Char.ofNat 96

/-- One-character string holding a backtick. -/
def btString : String := String.singleton backtick

/-- Embeds `escape`: refuse identifiers containing a backtick, else wrap the
identifier in backticks.  Python's substring test `'\x60' in string` for a
one-character needle is membership of that character in the string's
characters; the Python exception is an `Except.error`. -/
def escape (s : String) : Except String String :=
  if backtick ∈ s.data then
    Except.error ("Cannot escape identifier " ++ s ++ " because it contains a backtick")
  else
    Except.ok (btString ++ s ++ btString)

/-- The per-column projection loop of `generate_select_sql`: escape the
column, fetch its format from the schema (`KeyError` if absent → error),
and apply the binary/spatial encodings. -/
def escapeColumns (ce : CatalogEntry) : List String → Except String (List String)
  | [] => Except.ok []
  | col :: cols =>
    match escape col with
    | Except.error e => Except.error e
    | Except.ok ec =>
      match dlookup ce.schemaProps col with
      | Option.none => Except.error ("KeyError: " ++ col)
      | some prop =>
        let item :=
          if prop.format = some "binary" then
            "hex(trim(trailing CHAR(0x00) from " ++ ec ++ ")) as " ++ ec
          else if prop.format = some "spatial" then
            "ST_AsGeoJSON(" ++ ec ++ ") as " ++ ec
          else ec
        match escapeColumns ce cols with
        | Except.error e => Except.error e
        | Except.ok rest => Except.ok (item :: rest)

/-- Embeds `generate_select_sql`: escape database, table and columns (in
that order, failing fast), join into the SELECT text and double every
percent sign. -/
def generate_select_sql (ce : CatalogEntry) (columns : List String) :
    Except String String :=
  match escape ce.databaseName with
  | Except.error e => Except.error e
  | Except.ok edb =>
    match escape ce.table with
    | Except.error e => Except.error e
    | Except.ok etb =>
      match escapeColumns ce columns with
      | Except.error e => Except.error e
      | Except.ok ecols =>
        Except.ok ((("SELECT " ++ String.intercalate "," ecols
          ++ " FROM " ++ edb ++ "." ++ etb)).replace "%" "%%")

/-! ### Row transcoder (`row_to_singer_record`) -/

/-- Zero-pad a number to two digits (Python `%02d`, for nonnegative input). -/
def pad2 (n : Nat) : String :=
  if n < 10 then "0" ++ toString n else toString n

/-- Zero-pad to six digits (Python `%06d`, for nonnegative input). -/
def pad6 (n : Nat) : String :=
  let s := toString n
  if s.length < 6 then String.mk (List.replicate (6 - s.length) '0') ++ s else s

/-- Zero-pad to four digits (Python `%04d` used by `date.isoformat` years). -/
def pad4 (n : Nat) : String :=
  let s := toString n
  if s.length < 4 then String.mk (List.replicate (4 - s.length) '0') ++ s else s

/-- Python `str(timedelta)`: `H:MM:SS` (hours NOT zero padded), prefixed by
`"D day(s), "` when the normalized day count is nonzero, suffixed by
`".UUUUUU"` when microseconds are nonzero. -/
def timedeltaStr (days : Int) (seconds : Nat) (micros : Nat) : String :=
  let mm := seconds / 60
  let ss := seconds % 60
  let hh := mm / 60
  let m2 := mm % 60
  let base := toString hh ++ ":" ++ pad2 m2 ++ ":" ++ pad2 ss
  let base :=
    if days ≠ 0 then
      toString days ++ (if days.natAbs = 1 then " day, " else " days, ") ++ base
    else base
  if micros ≠ 0 then base ++ "." ++ pad6 micros else base

/-- Gregorian civil date from a day count relative to 1970-01-01
(standard days-from-civil inverse, as used by Python's date arithmetic). -/
def civilFromDays (z0 : Int) : Int × Nat × Nat :=
  let z := z0 + 719468
  let era := Int.fdiv z 146097
  let doe := (z - era * 146097).toNat
  let yoe := (doe - doe / 1460 + doe / 36524 - doe / 146096) / 365
  let y : Int := (yoe : Int) + era * 400
  let doy := doe - (365 * yoe + yoe / 4 - yoe / 100)
  let mp := (5 * doy + 2) / 153
  let d := doy - (153 * mp + 2) / 5 + 1
  let m := if mp < 10 then mp + 3 else mp - 9
  (y + (if m ≤ 2 then 1 else 0), m, d)

/-- `(datetime.utcfromtimestamp(0) + timedelta(days, seconds, micros)).isoformat()`:
the naive datetime at the given offset from the Unix epoch, ISO formatted
(fractional part only when microseconds are nonzero). -/
def epochPlusIso (days : Int) (seconds : Nat) (micros : Nat) : String :=
  let c := civilFromDays days
  let hh := seconds / 3600
  let mm := seconds % 3600 / 60
  let ss := seconds % 60
  pad4 c.1.toNat ++ "-" ++ pad2 c.2.1 ++ "-" ++ pad2 c.2.2 ++ "T"
    ++ pad2 hh ++ ":" ++ pad2 mm ++ ":" ++ pad2 ss
    ++ (if micros ≠ 0 then "." ++ pad6 micros else "")

/-- Python `elem == 0` for the modelled values (`False == 0` is true in
Python; no other modelled value compares equal to the int 0). -/
def pyEqZero : Value → Bool
  | Value.vInt n => n = 0
  | Value.vBool b => !b
  | _ => false

/-- Python `elem == b'\x00'` for the modelled values. -/
def pyEqNulByte : Value → Bool
  | Value.vBytes bs => bs = [0]
  | _ => false

/-- One step of the `row_to_singer_record` conversion loop: the `isinstance`
dispatch on datetimes, dates and timedeltas comes first (exactly as in the
source), then the declared-boolean handling, then pass-through. -/
def convertElem (prop : ColumnProp) (elem : Value) : Value :=
  match elem with
  | Value.vDateTime iso => Value.vStr (iso ++ "+00:00")
  | Value.vDate iso => Value.vStr (iso ++ "T00:00:00+00:00")
  | Value.vTimeDelta d s us =>
    if prop.format = some "time" then
      Value.vStr (timedeltaStr d s us)
    else
      Value.vStr (epochPlusIso d s us ++ "+00:00")
  | e =>
    if "boolean" ∈ prop.type then
      if e = Value.vNull then Value.vNull
      else if pyEqZero e || pyEqNulByte e then Value.vBool false
      else Value.vBool true
    else e

/-- The `for idx, elem in enumerate(row)` loop: each element is converted
with the schema entry of the column at the same index.  A row longer than
the column list hits `columns[idx]` out of range (`IndexError`, modelled
`none`); a column missing from the schema is a `KeyError` (`none`). -/
def rowConvert (ce : CatalogEntry) : List Value → List String → Option (List Value)
  | [], _ => some []
  | _ :: _, [] => Option.none
  | e :: es, c :: cs =>
    (dlookup ce.schemaProps c).bind fun prop =>
      (rowConvert ce es cs).map fun rest => convertElem prop e :: rest

/-- A singer `RecordMessage`. -/
structure RecordMessage where
  stream : String
  record : List (String × Value)
  version : Int
  time_extracted : String
  deriving DecidableEq

/-- Embeds `row_to_singer_record`: convert the row positionally and build
the record dict via `dict(zip(columns, row_to_persist))` (`zip` truncates to
the shorter sequence). -/
def row_to_singer_record (ce : CatalogEntry) (version : Int) (row : List Value)
    (columns : List String) (time_extracted : String) : Option RecordMessage :=
  match rowConvert ce row columns with
  | Option.none => Option.none
  | some vals =>
    some { stream := ce.stream
           record := pyDict (List.zip columns vals)
           version := version
           time_extracted := time_extracted }

/-! ### Checkpoint state and singer bookmark helpers

`State` is the singer state dict restricted to the part the engine touches:
`state['bookmarks']`, a mapping from `tap_stream_id` to a per-stream dict of
bookmark keys.  The `get_bookmark` / `write_bookmark` / `clear_bookmark`
definitions model the functions of the external `singer` library the source
calls. -/

structure State where
  bookmarks : List (String × List (String × BVal))
  deriving DecidableEq

/-- Models `singer.get_bookmark`: `state.get('bookmarks', {}).get(id, {}).get(key)`;
an absent entry is Python `None`, i.e. `BVal.none`. -/
def get_bookmark (st : State) (tapStreamId key : String) : BVal :=
  dlookupD (dlookupD st.bookmarks tapStreamId []) key BVal.none

/-- Models `singer.write_bookmark`: ensure the stream's dict exists, then set
`state['bookmarks'][id][key] = v`. -/
def write_bookmark (st : State) (tapStreamId key : String) (v : BVal) : State :=
  { bookmarks :=
      dictInsert st.bookmarks tapStreamId
        (dictInsert (dlookupD st.bookmarks tapStreamId []) key v) }

/-- Models `singer.clear_bookmark`: `state['bookmarks'][id].pop(key, None)`. -/
def clear_bookmark (st : State) (tapStreamId key : String) : State :=
  { bookmarks :=
      st.bookmarks.map fun p =>
        (p.1, if p.1 = tapStreamId then p.2.filter (fun q => q.1 ≠ key) else p.2) }

/-- Python truthiness of a value (`if max_pk_values:`). -/
def pyTruthyV : Value → Bool
  | Value.vNull => false
  | Value.vInt n => n ≠ 0
  | Value.vStr s => s ≠ ""
  | Value.vBytes bs => bs ≠ []
  | Value.vBool b => b
  | Value.vDateTime _ => true
  | Value.vDate _ => true
  | Value.vTimeDelta d s us => d ≠ 0 || s ≠ 0 || us ≠ 0

/-- Python truthiness of a bookmark value. -/
def bvTruthy : BVal → Bool
  | BVal.none => false
  | BVal.val v => pyTruthyV v
  | BVal.dict d => !d.isEmpty

/-- Python `x is None` for a bookmark value (a stored `None` and an absent
key are indistinguishable through `get_bookmark`). -/
def bvIsNone : BVal → Bool
  | BVal.none => true
  | BVal.val Value.vNull => true
  | _ => false

/-- Embeds `whitelist_bookmark_keys`: clear every key of the stream's
bookmark dict that is not in the whitelist (the list comprehension snapshots
the keys before the clears run). -/
def whitelist_bookmark_keys (bookmark_key_set : List String) (tap_stream_id : String)
    (st : State) : State :=
  let nonWhite :=
    ((dlookupD st.bookmarks tap_stream_id []).map Prod.fst).filter
      (fun k => k ∉ bookmark_key_set)
  nonWhite.foldl (fun s k => clear_bookmark s tap_stream_id k) st

/-- Embeds `update_bookmark`.  For FULL_TABLE/LOG_BASED with a truthy
`max_pk_values` marker, write `last_pk_fetched` as the record restricted to
the key properties.  For INCREMENTAL with a non-`None` `replication_key`
marker, re-write the marker and set `replication_key_value` to the record's
value of that column; a marker that is not a string, or a record missing the
column, is a Python `KeyError`/`TypeError` (`none`). -/
def update_bookmark (rm : RecordMessage) (replication_method : Option String)
    (ce : CatalogEntry) (st : State) : Option State :=
  if replication_method = some "FULL_TABLE" ∨ replication_method = some "LOG_BASED" then
    let key_properties := get_key_properties ce
    let max_pk_values := get_bookmark st ce.tapStreamId "max_pk_values"
    if bvTruthy max_pk_values then
      let last_pk_fetched := rm.record.filter (fun p => p.1 ∈ key_properties)
      some (write_bookmark st ce.tapStreamId "last_pk_fetched" (BVal.dict last_pk_fetched))
    else some st
  else if replication_method = some "INCREMENTAL" then
    let rk := get_bookmark st ce.tapStreamId "replication_key"
    if bvIsNone rk then some st
    else
      let st1 := write_bookmark st ce.tapStreamId "replication_key" rk
      match rk with
      | BVal.val (Value.vStr rkName) =>
        match dlookup rm.record rkName with
        | some v => some (write_bookmark st1 ce.tapStreamId "replication_key_value" (BVal.val v))
        | Option.none => Option.none
      | _ => Option.none
  else some st

/-! ### Batch file paths -/

/-- Left-pad the decimal rendering of `n` with zeros to six digits
(Python `str(n).zfill(6)`). -/
def zfill6 (n : Nat) : String :=
  let s := toString n
  if s.length < 6 then String.mk (List.replicate (6 - s.length) '0') ++ s else s

/-- Embeds `get_new_batch_file_path` (path computation; the `os.makedirs`
side effect is an `ensureDir` trace event at the call sites):
`<base>/<table>/<table>_<index zfilled to 6>.jsonl`. -/
def get_new_batch_file_path (basePath tableName : String) (fileIndex : Nat) : String :=
  basePath ++ "/" ++ tableName ++ "/" ++ tableName ++ "_" ++ zfill6 fileIndex ++ ".jsonl"

/-- The directory a batch file for `tableName` lives in. -/
def batchDir (basePath tableName : String) : String :=
  basePath ++ "/" ++ tableName

/-! ### The sync orchestrator as an event trace

`sync_query` is embedded as a function from its inputs (the cursor is
modelled by the list of rows the executed query returns) to the sequence of
observable effects plus the final state (`none` when the Python code would
raise).  Each record-related event carries the value of the source's
`rows_saved` counter for that row as a ghost index, so temporal claims can
refer to "the checkpoint update for record k". -/

inductive Event where
  | emitRecord : Nat → RecordMessage → Event
  | writeFile : String → Nat → RecordMessage → Event
  | updBookmark : Nat → Event
  | emitState : State → Event
  | emitBatch : String → String → Nat → Event
  | ensureDir : String → Event
  | openFile : String → Event
  | closeFile : String → Nat → Event
  deriving DecidableEq

/-- Configuration switches consumed by `sync_query` (`config.get(...)`). -/
structure Config where
  batch_messages : Bool
  batch_cursor_size : Option Nat
  batch_size : Option Nat
  deriving DecidableEq

/-- The immediate-mode `while row:` loop (lines 212–232): per row, emit the
record, apply the bookmark update, and every 1000 rows emit a deep-copied
state snapshot.  A transcoding or bookmark failure aborts with the events
produced so far. -/
def immLoop (ce : CatalogEntry) (version : Int) (columns : List String) (te : String)
    (repl : Option String) : List (List Value) → State → Nat → List Event × Option State
  | [], st, _ => ([], some st)
  | row :: rest, st, rowsSaved =>
    match row_to_singer_record ce version row columns te with
    | Option.none => ([], Option.none)
    | some rm =>
      match update_bookmark rm repl ce st with
      | Option.none => ([Event.emitRecord (rowsSaved + 1) rm], Option.none)
      | some st' =>
        let snap : List Event :=
          if (rowsSaved + 1) % 1000 = 0 then [Event.emitState st'] else []
        let r := immLoop ce version columns te repl rest st' (rowsSaved + 1)
        (Event.emitRecord (rowsSaved + 1) rm :: Event.updBookmark (rowsSaved + 1) ::
          (snap ++ r.1), r.2)

/-- The `for row in rows:` body of batched mode (lines 251–262): write the
record line to the current file, bump `rows_saved` and `batch_rows_saved`,
apply the bookmark update.  Returns the new state, `batch_rows_saved` and
`rows_saved` on success. -/
def processChunk (ce : CatalogEntry) (version : Int) (columns : List String) (te : String)
    (repl : Option String) (path : String) :
    List (List Value) → State → Nat → Nat → List Event × Option (State × Nat × Nat)
  | [], st, brs, rowsSaved => ([], some (st, brs, rowsSaved))
  | row :: rest, st, brs, rowsSaved =>
    match row_to_singer_record ce version row columns te with
    | Option.none => ([], Option.none)
    | some rm =>
      match update_bookmark rm repl ce st with
      | Option.none => ([Event.writeFile path (rowsSaved + 1) rm], Option.none)
      | some st' =>
        let r := processChunk ce version columns te repl path rest st' (brs + 1) (rowsSaved + 1)
        (Event.writeFile path (rowsSaved + 1) rm :: Event.updBookmark (rowsSaved + 1) :: r.1,
          r.2)

/-- The batched-mode `while rows:` loop plus its finalization (lines
247–308).  `remaining` models the unread part of the cursor; `fetchmany`
is `take`/`drop` of the chunk size.  The rotation check
`batch_rows_saved % write_batch_rows == 0` runs once per chunk; with
`write_batch_rows = 0` Python raises `ZeroDivisionError` (`none`).  On loop
exit the still-open file is closed and, when the rotation counter is not
threshold-aligned, a final batch descriptor carrying the actual row count is
emitted.  `closeFile` events carry the number of rows written to the closed
file as ghost data (the value of `batch_rows_saved` at the close).  The
`fuel` argument makes the recursion structural; every iteration that
recurses consumes at least one cursor row, so the initial fuel
`cursor.length + 1` supplied by `sync_query` never runs out and the
fuel-exhausted branch is unreachable from it. -/
def batchLoop (ce : CatalogEntry) (version : Int) (columns : List String) (te : String)
    (repl : Option String) (basePath : String) (chunkSize writeBatchRows : Nat) :
    Nat → List (List Value) → State → Nat → Nat → Nat → String →
      List Event × Option State
  | 0, _, _, _, _, _, _ => ([], Option.none)
  | fuel + 1, remaining, st, brs, rowsSaved, idx, curPath =>
  if remaining.take chunkSize = [] then
    -- `rows` is empty: exit the while loop, close the last file, publish the
    -- last batch message if not already published (lines 293–308).
    if writeBatchRows = 0 then
      ([Event.closeFile curPath brs], Option.none)
    else if brs % writeBatchRows ≠ 0 then
      ([Event.closeFile curPath brs, Event.emitBatch ce.stream curPath brs], some st)
    else
      ([Event.closeFile curPath brs], some st)
  else
    let chunk := remaining.take chunkSize
    let c := processChunk ce version columns te repl curPath chunk st brs rowsSaved
    match c.2 with
    | Option.none => (c.1, Option.none)
    | some (st', brs', rowsSaved') =>
      if writeBatchRows = 0 then (c.1, Option.none)
      else if brs' % writeBatchRows = 0 then
        -- rotation (lines 267–288): close, emit batch descriptor with
        -- batch_size = write_batch_rows, open the next file, reset the
        -- counter, emit a state snapshot.
        let path' := get_new_batch_file_path basePath ce.table idx
        let r := batchLoop ce version columns te repl basePath chunkSize writeBatchRows
          fuel (remaining.drop chunkSize) st' 0 rowsSaved' (idx + 1) path'
        (c.1 ++ [Event.closeFile curPath brs',
          Event.emitBatch ce.stream curPath writeBatchRows,
          Event.ensureDir (batchDir basePath ce.table),
          Event.openFile path',
          Event.emitState st'] ++ r.1, r.2)
      else
        let r := batchLoop ce version columns te repl basePath chunkSize writeBatchRows
          fuel (remaining.drop chunkSize) st' brs' rowsSaved' idx curPath
        (c.1 ++ r.1, r.2)

/-- Embeds `sync_query` (lines 191–310).  The `cursor.execute`/`mogrify`
calls and the metrics counter have no modelled effect; the cursor is the
list of rows the query yields.  Returns the event trace and the final state
(`none` when the Python code would raise an exception). -/
def sync_query (config : Config) (cursor : List (List Value)) (ce : CatalogEntry)
    (st : State) (select_sql : String) (columns : List String) (stream_version : Int)
    (te : String) (basePath : String) : List Event × Option State :=
  let _ := select_sql
  let repl := ce.replicationMethod
  if config.batch_messages = false then
    let r := immLoop ce stream_version columns te repl cursor st 0
    match r.2 with
    | some stF => (r.1 ++ [Event.emitState stF], some stF)
    | Option.none => (r.1, Option.none)
  else
    let chunkSize := config.batch_cursor_size.getD 500000
    let writeBatchRows := config.batch_size.getD (chunkSize * 2)
    let path0 := get_new_batch_file_path basePath ce.table 0
    let r := batchLoop ce stream_version columns te repl basePath chunkSize writeBatchRows
      (cursor.length + 1) cursor st 0 0 1 path0
    match r.2 with
    | some stF =>
      (Event.ensureDir (batchDir basePath ce.table) :: Event.openFile path0 ::
        (r.1 ++ [Event.emitState stF]), some stF)
    | Option.none =>
      (Event.ensureDir (batchDir basePath ce.table) :: Event.openFile path0 :: r.1,
        Option.none)

/-! ### Trace observations -/

/-- The `batch_size` fields of the emitted batch descriptor messages, in
order. -/
def batchSizes (evs : List Event) : List Nat :=
  evs.filterMap fun e =>
    match e with
    | Event.emitBatch _ _ n => some n
    | _ => Option.none

/-- The row counts of the closed batch files, in order (every opened file is
closed by `sync_query`). -/
def fileCounts (evs : List Event) : List Nat :=
  evs.filterMap fun e =>
    match e with
    | Event.closeFile _ n => some n
    | _ => Option.none

/-- The record messages emitted to the output boundary, in order. -/
def recordsOf (evs : List Event) : List RecordMessage :=
  evs.filterMap fun e =>
    match e with
    | Event.emitRecord _ rm => some rm
    | _ => Option.none

/-- Scan a trace checking that every checkpoint update refers to a record
already emitted (to the boundary or to a batch file): `em` is the set of
ghost indices emitted so far. -/
def updAfterEmit : List Event → List Nat → Bool
  | [], _ => true
  | e :: es, em =>
    match e with
    | Event.updBookmark k => em.contains k && updAfterEmit es em
    | Event.emitRecord k _ => updAfterEmit es (k :: em)
    | Event.writeFile _ k _ => updAfterEmit es (k :: em)
    | _ => updAfterEmit es em

/-- The emitted ghost indices of a trace, accumulated onto `em`. -/
def emitAcc : List Event → List Nat → List Nat
  | [], em => em
  | e :: es, em =>
    match e with
    | Event.emitRecord k _ => emitAcc es (k :: em)
    | Event.writeFile _ k _ => emitAcc es (k :: em)
    | _ => emitAcc es em

/-- Shape of an immediate-mode observable message: a record or a state
snapshot (checkpoint updates are internal state mutations, not messages). -/
inductive EShape where
  | record : EShape
  | snapshot : EShape
  deriving DecidableEq

/-- Project an event to its immediate-mode message shape. -/
def immShape (e : Event) : Option EShape :=
  match e with
  | Event.emitRecord _ _ => some EShape.record
  | Event.emitState _ => some EShape.snapshot
  | _ => Option.none

/-- The expected message-shape sequence of the immediate-mode loop over `n`
rows when `k` rows were already counted: each row yields a record, followed
by a state snapshot exactly when the cumulative count is a multiple of
1000. -/
def immShapeSpec : Nat → Nat → List EShape
  | 0, _ => []
  | n + 1, k =>
    EShape.record ::
      ((if (k + 1) % 1000 = 0 then [EShape.snapshot] else []) ++ immShapeSpec n (k + 1))

/-! ### Association-list lemmas -/

theorem dlookup_append {α : Type} (a b : List (String × α)) (k : String) :
    dlookup (a ++ b) k = match dlookup a k with
      | some v => some v
      | Option.none => dlookup b k := by
  induction a with
  | nil => simp [dlookup]
  | cons p ps ih =>
    simp only [List.cons_append, dlookup]
    by_cases hp : p.1 = k
    · simp [hp]
    · simp [hp, ih]

theorem any_key_eq_false_iff {α : Type} (d : List (String × α)) (k : String) :
    d.any (fun p => p.1 = k) = false ↔ k ∉ d.map Prod.fst := by
  simp only [List.any_eq_false, List.mem_map, decide_eq_true_eq]
  constructor
  · rintro h ⟨p, hp, hk⟩
    exact h p hp hk
  · intro h p hp hk
    exact h ⟨p, hp, hk⟩

theorem dlookup_eq_none_of_not_mem {α : Type} (d : List (String × α)) (k : String)
    (h : k ∉ d.map Prod.fst) : dlookup d k = Option.none := by
  induction d with
  | nil => rfl
  | cons p ps ih =>
    simp only [List.map_cons, List.mem_cons, not_or] at h
    simp only [dlookup, if_neg (fun he : p.1 = k => h.1 he.symm)]
    exact ih h.2

theorem dlookup_map_update {α : Type} (d : List (String × α)) (k k' : String) (v : α) :
    dlookup (d.map fun p => if p.1 = k then (k, v) else p) k' =
      if k' = k then (if d.any (fun p => p.1 = k) then some v else Option.none)
      else dlookup d k' := by
  induction d with
  | nil => by_cases h : k' = k <;> simp [dlookup, h]
  | cons p ps ih =>
    by_cases hp : p.1 = k
    · simp only [List.map_cons, if_pos hp, List.any_cons, hp, decide_eq_true_eq, dlookup]
      by_cases hk : k' = k
      · subst hk; simp
      · simp only [if_neg (fun he : k = k' => hk he.symm), if_neg hk,
          if_neg (fun he : p.1 = k' => hk (he.symm.trans hp)), dlookup]
        have hk2 : ¬ k = k' := fun he => hk he.symm
        rw [ih]
        simp [hk, hk2]
    · simp only [List.map_cons, if_neg hp, List.any_cons, dlookup]
      by_cases hpk : p.1 = k'
      · have hk : ¬ k' = k := fun he => hp (hpk.trans he)
        simp [hpk, hk]
      · simp only [if_neg hpk]
        rw [ih]
        by_cases hk : k' = k
        · simp only [decide_eq_false hp, Bool.false_or]
        · simp [hk]

theorem dlookup_dictInsert {α : Type} (d : List (String × α)) (k k' : String) (v : α) :
    dlookup (dictInsert d k v) k' = if k' = k then some v else dlookup d k' := by
  unfold dictInsert
  by_cases hany : d.any (fun p => p.1 = k) = true
  · simp only [hany, if_true]
    rw [dlookup_map_update]
    simp [hany]
  · simp only [hany, Bool.false_eq_true, if_false]
    rw [dlookup_append]
    by_cases hk : k' = k
    · subst hk
      rw [dlookup_eq_none_of_not_mem d k'
        ((any_key_eq_false_iff d k').mp (Bool.eq_false_iff.mpr hany))]
      simp [dlookup]
    · have hk' : ¬ k = k' := fun he => hk he.symm
      cases hd : dlookup d k' <;> simp [dlookup, hk, hk', hd]

/-! ### Bookmark-tree lemmas -/

theorem get_bookmark_write (st : State) (id id' k k' : String) (v : BVal) :
    get_bookmark (write_bookmark st id k v) id' k' =
      if id' = id then (if k' = k then v else get_bookmark st id k')
      else get_bookmark st id' k' := by
  simp only [get_bookmark, write_bookmark, dlookupD]
  rw [dlookup_dictInsert]
  by_cases h1 : id' = id
  · simp only [if_pos h1, Option.getD_some]
    rw [dlookup_dictInsert]
    by_cases h2 : k' = k
    · simp [h2]
    · simp [h2]
  · simp only [if_neg h1]

theorem dlookup_clear_map (bms : List (String × List (String × BVal)))
    (id k i : String) :
    dlookup (bms.map fun p =>
        (p.1, if p.1 = id then p.2.filter (fun q => q.1 ≠ k) else p.2)) i =
      (dlookup bms i).map
        (fun inner => if i = id then inner.filter (fun q => q.1 ≠ k) else inner) := by
  simp only [ne_eq, decide_not]
  induction bms with
  | nil => rfl
  | cons p ps ih =>
    simp only [List.map_cons, dlookup]
    by_cases hp : p.1 = i
    · subst hp; simp
    · simp only [if_neg hp]
      exact ih

theorem dlookup_filter_key {α : Type} (d : List (String × α)) (k k' : String) :
    dlookup (d.filter fun q => q.1 ≠ k) k' =
      if k' = k then Option.none else dlookup d k' := by
  simp only [ne_eq, decide_not]
  induction d with
  | nil => by_cases h : k' = k <;> simp [dlookup, h]
  | cons p ps ih =>
    simp only [List.filter_cons]
    by_cases hp : p.1 = k
    · simp only [decide_eq_true hp, Bool.not_true, Bool.false_eq_true, if_false]
      rw [ih]
      by_cases h : k' = k
      · simp [h]
      · simp only [if_neg h, dlookup, if_neg (fun he : p.1 = k' => h (he.symm.trans hp))]
    · simp only [decide_eq_false hp, Bool.not_false, if_true, dlookup]
      by_cases hpk : p.1 = k'
      · have h : ¬ k' = k := fun he => hp (hpk.trans he)
        simp [hpk, h]
      · simp only [if_neg hpk]
        exact ih

theorem get_bookmark_clear (st : State) (id id' k k' : String) :
    get_bookmark (clear_bookmark st id k) id' k' =
      if id' = id ∧ k' = k then BVal.none else get_bookmark st id' k' := by
  simp only [get_bookmark, clear_bookmark, dlookupD]
  rw [dlookup_clear_map]
  cases hd : dlookup st.bookmarks id' with
  | none =>
    by_cases h : id' = id ∧ k' = k <;> simp [h, dlookup]
  | some inner =>
    simp only [Option.map_some', Option.getD_some]
    by_cases h1 : id' = id
    · simp only [if_pos h1]
      rw [dlookup_filter_key]
      by_cases h2 : k' = k
      · simp [h1, h2]
      · simp [h1, h2]
    · simp [h1]

theorem get_bookmark_clearMany (id : String) (l : List String) :
    ∀ (st : State) (id' k' : String),
      get_bookmark (l.foldl (fun s k => clear_bookmark s id k) st) id' k' =
        if id' = id ∧ k' ∈ l then BVal.none else get_bookmark st id' k' := by
  induction l with
  | nil => intro st id' k'; simp
  | cons a l ih =>
    intro st id' k'
    simp only [List.foldl_cons]
    rw [ih, get_bookmark_clear]
    by_cases h1 : id' = id
    · by_cases h2 : k' ∈ l
      · simp [h1, h2]
      · by_cases h3 : k' = a <;> simp [h1, h2, h3]
    · simp [h1]

/-- C7: `whitelist_bookmark_keys(allowed_keys, stream_id, state)` removes
every checkpoint field stored under that stream id whose key is not in the
allowed-key set, leaves every field whose key is in the allowed-key set
unchanged, and leaves every other stream's subtree unchanged (stated through
the `get_bookmark` observations of the resulting state). -/
theorem whitelist_bookmark_keys_spec (ks : List String) (id : String) (st : State) :
    (∀ k, get_bookmark (whitelist_bookmark_keys ks id st) id k =
        if k ∈ ks then get_bookmark st id k else BVal.none)
    ∧ (∀ id' k, id' ≠ id →
        get_bookmark (whitelist_bookmark_keys ks id st) id' k = get_bookmark st id' k) := by
  unfold whitelist_bookmark_keys
  constructor
  · intro k
    rw [get_bookmark_clearMany]
    by_cases hks : k ∈ ks
    · have hnw : k ∉ ((dlookupD st.bookmarks id []).map Prod.fst).filter
          (fun x => x ∉ ks) := by
        intro hmem
        exact absurd hks (by simpa using (List.mem_filter.mp hmem).2)
      rw [if_neg (fun hc => hnw hc.2), if_pos hks]
    · by_cases hmem : k ∈ (dlookupD st.bookmarks id []).map Prod.fst
      · have hnw : k ∈ ((dlookupD st.bookmarks id []).map Prod.fst).filter
            (fun x => x ∉ ks) := List.mem_filter.mpr ⟨hmem, by simpa using hks⟩
        rw [if_pos ⟨rfl, hnw⟩, if_neg hks]
      · have hnw : k ∉ ((dlookupD st.bookmarks id []).map Prod.fst).filter
            (fun x => x ∉ ks) := fun hf => hmem (List.mem_filter.mp hf).1
        have hval : get_bookmark st id k = BVal.none := by
          have h0 := dlookup_eq_none_of_not_mem (dlookupD st.bookmarks id []) k hmem
          simp only [get_bookmark, dlookupD] at h0 ⊢
          rw [h0]
          rfl
        rw [if_neg (fun hc => hnw hc.2), if_neg hks, hval]
  · intro id' k hne
    rw [get_bookmark_clearMany]
    simp [hne]

/-- Sample state with two streams and a stale key under `s1`. -/
def stTwoStreams : State :=
  { bookmarks := [("s1", [("version", BVal.val (Value.vInt 3)),
      ("stale", BVal.val (Value.vInt 7))]),
    ("s2", [("x", BVal.val (Value.vInt 1))])] }

/-- Witness for C7: whitelisting `version` on `s1` drops `stale`, keeps
`version`, and leaves stream `s2` untouched. -/
theorem whitelist_bookmark_keys_witness :
    (("s2" : String) ≠ "s1") ∧
    get_bookmark (whitelist_bookmark_keys ["version"] "s1" stTwoStreams) "s1" "stale" =
      BVal.none ∧
    get_bookmark (whitelist_bookmark_keys ["version"] "s1" stTwoStreams) "s1" "version" =
      get_bookmark stTwoStreams "s1" "version" ∧
    get_bookmark (whitelist_bookmark_keys ["version"] "s1" stTwoStreams) "s2" "x" =
      get_bookmark stTwoStreams "s2" "x" := by
  refine ⟨by decide, ?_, ?_, ?_⟩
  · have h := (whitelist_bookmark_keys_spec ["version"] "s1" stTwoStreams).1 "stale"
    simpa using h
  · have h := (whitelist_bookmark_keys_spec ["version"] "s1" stTwoStreams).1 "version"
    simpa using h
  · exact (whitelist_bookmark_keys_spec ["version"] "s1" stTwoStreams).2 "s2" "x"
      (by decide)

/-! ### C6: incremental checkpoint tracking -/

/-- Iterated checkpoint transitions: `update_bookmark` applied once per
record in order, as the sync loop does for each emitted record. -/
def processRecordsBookmarks (repl : Option String) (ce : CatalogEntry) :
    List RecordMessage → State → Option State
  | [], st => some st
  | rm :: rms, st =>
    match update_bookmark rm repl ce st with
    | Option.none => Option.none
    | some st' => processRecordsBookmarks repl ce rms st'

theorem update_bookmark_incremental (ce : CatalogEntry) (st : State) (rm : RecordMessage)
    (rk : String) (v : Value)
    (hmark : get_bookmark st ce.tapStreamId "replication_key" = BVal.val (Value.vStr rk))
    (hv : dlookup rm.record rk = some v) :
    update_bookmark rm (some "INCREMENTAL") ce st =
      some (write_bookmark
        (write_bookmark st ce.tapStreamId "replication_key" (BVal.val (Value.vStr rk)))
        ce.tapStreamId "replication_key_value" (BVal.val v)) := by
  unfold update_bookmark
  simp only [hmark, hv, bvIsNone]
  simp

theorem update_bookmark_incremental_marker (ce : CatalogEntry) (st : State)
    (rm : RecordMessage) (rk : String) (v : Value)
    (hmark : get_bookmark st ce.tapStreamId "replication_key" = BVal.val (Value.vStr rk))
    (hv : dlookup rm.record rk = some v) :
    ∃ st', update_bookmark rm (some "INCREMENTAL") ce st = some st' ∧
      get_bookmark st' ce.tapStreamId "replication_key" = BVal.val (Value.vStr rk) ∧
      get_bookmark st' ce.tapStreamId "replication_key_value" = BVal.val v := by
  refine ⟨_, update_bookmark_incremental ce st rm rk v hmark hv, ?_, ?_⟩
  · rw [get_bookmark_write]
    simp only [if_pos rfl]
    rw [if_neg (show ¬(("replication_key" : String) = "replication_key_value") from
      by decide)]
    rw [get_bookmark_write]
    simp
  · rw [get_bookmark_write]
    simp

/-- C6: for an INCREMENTAL stream whose checkpoint already contains a
`replication_key` marker, after processing a sequence of records the
checkpoint's `replication_key_value` equals the replication-key column's
value of the last record processed; and when no marker exists the
checkpoint is left untouched for that record. -/
theorem incremental_bookmark_spec (ce : CatalogEntry) (rk : String) :
    (∀ (st : State) (rms : List RecordMessage) (rmN : RecordMessage) (v : Value),
      get_bookmark st ce.tapStreamId "replication_key" = BVal.val (Value.vStr rk) →
      (∀ rm ∈ rms, (dlookup rm.record rk).isSome) →
      dlookup rmN.record rk = some v →
      ∃ st', processRecordsBookmarks (some "INCREMENTAL") ce (rms ++ [rmN]) st = some st' ∧
        get_bookmark st' ce.tapStreamId "replication_key_value" = BVal.val v)
    ∧ (∀ (rm : RecordMessage) (s : State),
        bvIsNone (get_bookmark s ce.tapStreamId "replication_key") = true →
        update_bookmark rm (some "INCREMENTAL") ce s = some s) := by
  constructor
  · intro st rms
    induction rms generalizing st with
    | nil =>
      intro rmN v hmark _ hv
      obtain ⟨st', hupd, _, hval⟩ :=
        update_bookmark_incremental_marker ce st rmN rk v hmark hv
      refine ⟨st', ?_, hval⟩
      simp [processRecordsBookmarks, hupd]
    | cons rm rms ih =>
      intro rmN v hmark hall hv
      obtain ⟨v0, hv0⟩ := Option.isSome_iff_exists.mp (hall rm (by simp))
      obtain ⟨st2, hupd, hmark2, _⟩ :=
        update_bookmark_incremental_marker ce st rm rk v0 hmark hv0
      obtain ⟨st', hrun, hval⟩ :=
        ih st2 rmN v hmark2 (fun r hr => hall r (by simp [hr])) hv
      refine ⟨st', ?_, hval⟩
      simp [processRecordsBookmarks, hupd, hrun]
  · intro rm s hnone
    unfold update_bookmark
    simp only [hnone]
    simp

/-- Sample state with an established INCREMENTAL baseline for stream
`d-t`. -/
def stIncr : State :=
  { bookmarks := [("d-t", [("replication_key", BVal.val (Value.vStr "id")),
      ("replication_key_value", BVal.val (Value.vInt 0))])] }

/-- Sample catalog entry for the INCREMENTAL witness. -/
def ceIncr : CatalogEntry :=
  { stream := "s", table := "t", databaseName := "d", tapStreamId := "d-t",
    schemaProps := [("id", ⟨["integer"], Option.none⟩)],
    keyProperties := [], replicationMethod := some "INCREMENTAL" }

/-- A record with `id = 5`. -/
def rmId5 : RecordMessage :=
  { stream := "s", record := [("id", Value.vInt 5)], version := 1, time_extracted := "te" }

/-- A record with `id = 9`. -/
def rmId9 : RecordMessage :=
  { stream := "s", record := [("id", Value.vInt 9)], version := 1, time_extracted := "te" }

/-- Witness for C6: two records with `id = 5` then `id = 9`; afterwards the
checkpoint's `replication_key_value` is `9`, the last record's value. -/
theorem incremental_bookmark_spec_witness :
    (get_bookmark stIncr ceIncr.tapStreamId "replication_key" =
        BVal.val (Value.vStr "id")) ∧
    ∃ st', processRecordsBookmarks (some "INCREMENTAL") ceIncr
        ([rmId5] ++ [rmId9]) stIncr = some st' ∧
      get_bookmark st' ceIncr.tapStreamId "replication_key_value" =
        BVal.val (Value.vInt 9) := by
  refine ⟨by decide, ?_⟩
  exact (incremental_bookmark_spec ceIncr "id").1 stIncr _ _ (Value.vInt 9)
    (by decide) (by decide) (by decide)

/-! ### C9: timedelta formatting for `time` columns -/

/-- C9 (code-bug evidence): for a column with declared format `time` the
transcoder emits Python's `str(timedelta)`, which is `H:MM:SS` with an
unpadded hour for durations under 10 hours, and gains a `"N day(s), "`
prefix for durations of 24 hours or more and for negative durations —
not the fixed-clock `HH:MM:SS` string the code's own comment and the spec
promise. -/
theorem timedelta_time_format_evaluation :
    convertElem ⟨["string"], some "time"⟩ (Value.vTimeDelta 0 34200 0) =
      Value.vStr "9:30:00"
    ∧ convertElem ⟨["string"], some "time"⟩ (Value.vTimeDelta 1 0 0) =
      Value.vStr "1 day, 0:00:00"
    ∧ convertElem ⟨["string"], some "time"⟩ (Value.vTimeDelta (-1) 86340 0) =
      Value.vStr "-1 day, 23:59:00" := by
  exact ⟨rfl, rfl, rfl⟩

/-! ### C4: boolean-typed column mapping -/

/-- A value the source's `isinstance` chain recognizes as temporal (handled
before the declared-boolean check). -/
def isTemporal : Value → Bool
  | Value.vDateTime _ => true
  | Value.vDate _ => true
  | Value.vTimeDelta _ _ _ => true
  | _ => false

/-- Sample catalog entry with a single declared-boolean column `b`. -/
def ceBool : CatalogEntry :=
  { stream := "s", table := "t", databaseName := "d", tapStreamId := "d-t",
    schemaProps := [("b", ⟨["boolean"], Option.none⟩)],
    keyProperties := [], replicationMethod := Option.none }

/-- C4 counterexample: in a declared-boolean column a datetime value is not
mapped to `true` — the `isinstance` datetime branch runs first and produces
an ISO string. -/
theorem boolean_column_counterexample :
    row_to_singer_record ceBool 1 [Value.vDateTime "2020-01-01T00:00:00"] ["b"] "te" =
      some { stream := "s",
             record := [("b", Value.vStr "2020-01-01T00:00:00+00:00")],
             version := 1, time_extracted := "te" }
    ∧ Value.vStr "2020-01-01T00:00:00+00:00" ≠ Value.vBool true := by
  exact ⟨rfl, by decide⟩

/-- C4 (amended): for every column whose declared schema type includes
`boolean` and every non-temporal value, the transcoder maps `None` to null,
a value equal to numeric 0 or to the single NUL byte to `false`, and every
other such value to `true` (temporal values are converted by the
date/time rules instead, regardless of the declared type). -/
theorem boolean_column_mapping (prop : ColumnProp) (elem : Value)
    (hb : "boolean" ∈ prop.type) (ht : isTemporal elem = false) :
    convertElem prop elem =
      (if elem = Value.vNull then Value.vNull
       else if pyEqZero elem || pyEqNulByte elem then Value.vBool false
       else Value.vBool true) := by
  cases elem <;> simp_all [convertElem, isTemporal]

/-- Witness for C4 (amended): the int 5 in a boolean column maps to
`true`. -/
theorem boolean_column_mapping_witness :
    ("boolean" ∈ (⟨["boolean"], Option.none⟩ : ColumnProp).type) ∧
      isTemporal (Value.vInt 5) = false ∧
      convertElem ⟨["boolean"], Option.none⟩ (Value.vInt 5) = Value.vBool true := by
  refine ⟨by decide, rfl, ?_⟩
  have h := boolean_column_mapping ⟨["boolean"], Option.none⟩ (Value.vInt 5)
    (by decide) rfl
  simpa using h

/-! ### C2: row arity behavior -/

theorem rowConvert_some_length (ce : CatalogEntry) :
    ∀ (row : List Value) (cols : List String) (vals : List Value),
      rowConvert ce row cols = some vals →
      vals.length = row.length ∧ row.length ≤ cols.length := by
  intro row
  induction row with
  | nil =>
    intro cols vals h
    simp only [rowConvert, Option.some.injEq] at h
    subst h
    simp
  | cons e es ih =>
    intro cols vals h
    cases cols with
    | nil => simp [rowConvert] at h
    | cons c cs =>
      simp only [rowConvert, Option.bind_eq_some, Option.map_eq_some'] at h
      obtain ⟨prop, _, rest, hr, hv⟩ := h
      obtain ⟨h1, h2⟩ := ih cs rest hr
      subst hv
      simp only [List.length_cons]
      exact ⟨by omega, by omega⟩

theorem rowConvert_too_long (ce : CatalogEntry) :
    ∀ (row : List Value) (cols : List String), cols.length < row.length →
      rowConvert ce row cols = Option.none := by
  intro row
  induction row with
  | nil => intro cols h; simp at h
  | cons e es ih =>
    intro cols h
    cases cols with
    | nil => rfl
    | cons c cs =>
      simp only [List.length_cons] at h
      have hr := ih cs (by omega)
      cases hd : dlookup ce.schemaProps c <;> simp [rowConvert, hd, hr]

theorem dictInsert_fresh {α : Type} (d : List (String × α)) (k : String) (v : α)
    (h : k ∉ d.map Prod.fst) : dictInsert d k v = d ++ [(k, v)] := by
  have hany : d.any (fun p => p.1 = k) = false := (any_key_eq_false_iff d k).mpr h
  unfold dictInsert
  rw [hany]
  simp

theorem foldl_dictInsert_nodup :
    ∀ (ps acc : List (String × Value)),
      ((acc ++ ps).map Prod.fst).Nodup →
      ps.foldl (fun d p => dictInsert d p.1 p.2) acc = acc ++ ps := by
  intro ps
  induction ps with
  | nil => intro acc _; simp
  | cons p ps ih =>
    intro acc h
    simp only [List.foldl_cons]
    have hfresh : p.1 ∉ acc.map Prod.fst := by
      rw [List.map_append] at h
      rcases List.nodup_append.mp h with ⟨_, _, hdisj⟩
      intro hmem
      exact (hdisj hmem) (by simp)
    rw [dictInsert_fresh _ _ _ hfresh]
    have h2 : (((acc ++ [p]) ++ ps).map Prod.fst).Nodup := by
      simpa [List.append_assoc] using h
    rw [ih (acc ++ [p]) h2]
    simp

theorem pyDict_nodup (ps : List (String × Value)) (h : (ps.map Prod.fst).Nodup) :
    pyDict ps = ps := by
  have := foldl_dictInsert_nodup ps [] (by simpa using h)
  simpa [pyDict] using this

theorem map_fst_zip_take {α β : Type} :
    ∀ (l1 : List α) (l2 : List β),
      (List.zip l1 l2).map Prod.fst = l1.take l2.length := by
  intro l1
  induction l1 with
  | nil => intro l2; simp
  | cons a l1 ih =>
    intro l2
    cases l2 with
    | nil => simp
    | cons b l2 => simp [ih]

/-- Sample catalog entry with two integer columns `a`, `b`. -/
def ceTwoCols : CatalogEntry :=
  { stream := "s", table := "t", databaseName := "d", tapStreamId := "d-t",
    schemaProps := [("a", ⟨["integer"], Option.none⟩), ("b", ⟨["integer"], Option.none⟩)],
    keyProperties := [], replicationMethod := Option.none }

/-- C2 counterexample: a 1-value row against a 2-column list is transcoded
without any error into a 1-entry record — the `dict(zip(...))` silently
truncates; no DataShapeError exists in the code. -/
theorem row_arity_counterexample :
    row_to_singer_record ceTwoCols 1 [Value.vInt 7] ["a", "b"] "te" =
      some { stream := "s", record := [("a", Value.vInt 7)],
             version := 1, time_extracted := "te" }
    ∧ (["a", "b"] : List String).length ≠
        ([("a", Value.vInt 7)] : List (String × Value)).length := by
  exact ⟨rfl, by decide⟩

/-- C2 (amended): a row longer than the (duplicate-free) column list makes
`row_to_singer_record` fail with an IndexError; a row of length at most the
column list is transcoded into a record with exactly one entry per row
value — so shorter rows are silently truncated instead of raising, and
equal-arity rows give `len(record) = len(columns)`. -/
theorem row_arity_behavior (ce : CatalogEntry) (version : Int) (row : List Value)
    (cols : List String) (te : String) (hnd : cols.Nodup) :
    (cols.length < row.length →
      row_to_singer_record ce version row cols te = Option.none)
    ∧ (∀ rm, row_to_singer_record ce version row cols te = some rm →
        rm.record.length = row.length) := by
  constructor
  · intro h
    simp [row_to_singer_record, rowConvert_too_long ce row cols h]
  · intro rm h
    simp only [row_to_singer_record] at h
    cases hrc : rowConvert ce row cols with
    | none => rw [hrc] at h; simp at h
    | some vals =>
      rw [hrc] at h
      obtain ⟨hlen, hle⟩ := rowConvert_some_length ce row cols vals hrc
      have hzip : ((List.zip cols vals).map Prod.fst).Nodup := by
        rw [map_fst_zip_take]
        exact List.Nodup.sublist (List.take_sublist _ _) hnd
      simp only [Option.some.injEq] at h
      subst h
      simp only [pyDict_nodup _ hzip, List.length_zip]
      omega

/-- Witness for C2 (amended): over-long rows fail; an equal-arity row
yields a record with one entry per column. -/
theorem row_arity_behavior_witness :
    (["a", "b"] : List String).Nodup ∧
    row_to_singer_record ceTwoCols 1 [Value.vInt 7, Value.vInt 8, Value.vInt 9]
      ["a", "b"] "te" = Option.none ∧
    ({ stream := "s", record := [("a", Value.vInt 7), ("b", Value.vInt 8)],
       version := 1, time_extracted := "te" } : RecordMessage).record.length = 2 := by
  refine ⟨by decide, ?_, ?_⟩
  · exact (row_arity_behavior ceTwoCols 1 _ _ "te" (by decide)).1 (by decide)
  · exact (row_arity_behavior ceTwoCols 1 [Value.vInt 7, Value.vInt 8] ["a", "b"] "te"
      (by decide)).2 _ rfl

/-! ### C5: identifier escaping and the projection builder -/

theorem escapeColumns_error (ce : CatalogEntry) :
    ∀ (cols : List String), (∃ c ∈ cols, backtick ∈ c.data) →
      ∃ e, escapeColumns ce cols = Except.error e := by
  intro cols
  induction cols with
  | nil => rintro ⟨c, hc, _⟩; cases hc
  | cons col cols ih =>
    rintro ⟨c, hc, hbt⟩
    by_cases hcol : backtick ∈ col.data
    · refine ⟨"Cannot escape identifier " ++ col ++ " because it contains a backtick", ?_⟩
      simp [escapeColumns, escape, hcol]
    · have hc' : c ∈ cols := by
        cases List.mem_cons.mp hc with
        | inl he => exact absurd (he ▸ hbt) hcol
        | inr h => exact h
      obtain ⟨e, he⟩ := ih ⟨c, hc', hbt⟩
      cases hdl : dlookup ce.schemaProps col with
      | none =>
        refine ⟨"KeyError: " ++ col, ?_⟩
        simp [escapeColumns, escape, hcol, hdl]
      | some prop => exact ⟨e, by simp [escapeColumns, escape, hcol, hdl, he]⟩

/-- C5: if the database name, the table name or any selected column
contains the escaping delimiter (backtick), `generate_select_sql` fails
before producing any query text; and every identifier free of the delimiter
is wrapped in it by `escape`. -/
theorem escape_and_select_sql_spec (ce : CatalogEntry) (columns : List String) :
    ((backtick ∈ ce.databaseName.data ∨ backtick ∈ ce.table.data ∨
        ∃ c ∈ columns, backtick ∈ c.data) →
      ∃ e, generate_select_sql ce columns = Except.error e)
    ∧ (∀ s, backtick ∉ s.data →
        escape s = Except.ok (btString ++ s ++ btString)) := by
  constructor
  · intro h
    by_cases h1 : backtick ∈ ce.databaseName.data
    · refine ⟨"Cannot escape identifier " ++ ce.databaseName ++
        " because it contains a backtick", ?_⟩
      simp [generate_select_sql, escape, h1]
    · by_cases h2 : backtick ∈ ce.table.data
      · refine ⟨"Cannot escape identifier " ++ ce.table ++
          " because it contains a backtick", ?_⟩
        simp [generate_select_sql, escape, h1, h2]
      · have h3 : ∃ c ∈ columns, backtick ∈ c.data := by tauto
        obtain ⟨e, he⟩ := escapeColumns_error ce columns h3
        exact ⟨e, by simp [generate_select_sql, escape, h1, h2, he]⟩
  · intro s hs
    simp [escape, hs]

/-- Sample catalog entry whose table name contains a backtick. -/
def ceBadTable : CatalogEntry :=
  { stream := "s", table := "a`b", databaseName := "d", tapStreamId := "d-t",
    schemaProps := [("c", ⟨["integer"], Option.none⟩)],
    keyProperties := [], replicationMethod := Option.none }

/-- Witness for C5: the table name "a backtick b" aborts the builder; a
clean identifier is wrapped. -/
theorem escape_and_select_sql_witness :
    (backtick ∈ ceBadTable.table.data) ∧
    (∃ e, generate_select_sql ceBadTable ["c"] = Except.error e) ∧
    escape "col" = Except.ok (btString ++ "col" ++ btString) := by
  refine ⟨by decide, ?_, ?_⟩
  · exact (escape_and_select_sql_spec ceBadTable ["c"]).1 (Or.inr (Or.inl (by decide)))
  · exact (escape_and_select_sql_spec ceBadTable ["c"]).2 "col" (by decide)

/-! ### C3: records are emitted before their checkpoint updates -/

theorem updAfterEmit_mono :
    ∀ (xs : List Event) (em em' : List Nat),
      (∀ k, em.contains k = true → em'.contains k = true) →
      updAfterEmit xs em = true → updAfterEmit xs em' = true := by
  intro xs
  induction xs with
  | nil => intro em em' _ _; rfl
  | cons e es ih =>
    intro em em' hsub h
    cases e with
    | updBookmark k =>
      simp only [updAfterEmit, Bool.and_eq_true] at h ⊢
      exact ⟨hsub k h.1, ih em em' hsub h.2⟩
    | emitRecord k rm =>
      simp only [updAfterEmit] at h ⊢
      refine ih (k :: em) (k :: em') ?_ h
      intro j hj
      simp only [List.contains_cons, Bool.or_eq_true] at hj ⊢
      rcases hj with hj | hj
      · exact Or.inl hj
      · exact Or.inr (hsub j hj)
    | writeFile p k rm =>
      simp only [updAfterEmit] at h ⊢
      refine ih (k :: em) (k :: em') ?_ h
      intro j hj
      simp only [List.contains_cons, Bool.or_eq_true] at hj ⊢
      rcases hj with hj | hj
      · exact Or.inl hj
      · exact Or.inr (hsub j hj)
    | emitState st => exact ih em em' hsub h
    | emitBatch s p n => exact ih em em' hsub h
    | ensureDir d => exact ih em em' hsub h
    | openFile p => exact ih em em' hsub h
    | closeFile p n => exact ih em em' hsub h

theorem updAfterEmit_append :
    ∀ (xs ys : List Event) (em : List Nat),
      updAfterEmit (xs ++ ys) em =
        (updAfterEmit xs em && updAfterEmit ys (emitAcc xs em)) := by
  intro xs
  induction xs with
  | nil => intro ys em; simp [updAfterEmit, emitAcc]
  | cons e es ih =>
    intro ys em
    cases e <;> simp [updAfterEmit, emitAcc, ih, Bool.and_assoc]

theorem updAfterEmit_immLoop (ce : CatalogEntry) (version : Int) (columns : List String)
    (te : String) (repl : Option String) :
    ∀ (rows : List (List Value)) (st : State) (k : Nat) (em : List Nat),
      updAfterEmit (immLoop ce version columns te repl rows st k).1 em = true := by
  intro rows
  induction rows with
  | nil => intro st k em; rfl
  | cons row rest ih =>
    intro st k em
    simp only [immLoop]
    cases hr : row_to_singer_record ce version row columns te with
    | none => rfl
    | some rm =>
      cases hu : update_bookmark rm repl ce st with
      | none => simp [hu, updAfterEmit]
      | some st' =>
        by_cases hsnap : (k + 1) % 1000 = 0 <;>
          simp [hu, hsnap, updAfterEmit, List.contains_cons, ih]

theorem updAfterEmit_processChunk (ce : CatalogEntry) (version : Int)
    (columns : List String) (te : String) (repl : Option String) (path : String) :
    ∀ (chunk : List (List Value)) (st : State) (brs rowsSaved : Nat) (em : List Nat),
      updAfterEmit (processChunk ce version columns te repl path chunk st brs
        rowsSaved).1 em = true := by
  intro chunk
  induction chunk with
  | nil => intro st brs rowsSaved em; rfl
  | cons row rest ih =>
    intro st brs rowsSaved em
    simp only [processChunk]
    cases hr : row_to_singer_record ce version row columns te with
    | none => rfl
    | some rm =>
      cases hu : update_bookmark rm repl ce st with
      | none => simp [hu, updAfterEmit]
      | some st' => simp [hu, updAfterEmit, List.contains_cons, ih]

theorem updAfterEmit_batchLoop (ce : CatalogEntry) (version : Int)
    (columns : List String) (te : String) (repl : Option String) (basePath : String)
    (chunkSize writeBatchRows : Nat) :
    ∀ (fuel : Nat) (remaining : List (List Value)) (st : State) (brs rowsSaved idx : Nat)
      (curPath : String) (em : List Nat),
      updAfterEmit (batchLoop ce version columns te repl basePath chunkSize
        writeBatchRows fuel remaining st brs rowsSaved idx curPath).1 em = true := by
  intro fuel
  induction fuel with
  | zero => intro remaining st brs rowsSaved idx curPath em; rfl
  | succ fuel ih =>
    intro remaining st brs rowsSaved idx curPath em
    rw [batchLoop]
    by_cases hc : remaining.take chunkSize = []
    · rw [if_pos hc]
      split_ifs <;> rfl
    · rw [if_neg hc]
      simp only
      cases hres : (processChunk ce version columns te repl curPath
          (remaining.take chunkSize) st brs rowsSaved).2 with
      | none =>
        exact updAfterEmit_processChunk ce version columns te repl curPath _ st brs
          rowsSaved em
      | some r3 =>
        obtain ⟨st', brs', rowsSaved'⟩ := r3
        by_cases hT : writeBatchRows = 0
        · simp only [hT, if_true]
          exact updAfterEmit_processChunk ce version columns te repl curPath _ st brs
            rowsSaved em
        · simp only [hT, if_false]
          by_cases hrot : brs' % writeBatchRows = 0
          · simp only [hrot, if_true]
            rw [List.append_assoc, updAfterEmit_append, Bool.and_eq_true]
            refine ⟨?_, ?_⟩
            · exact updAfterEmit_processChunk ce version columns te repl curPath _ st
                brs rowsSaved em
            · simp only [updAfterEmit]
              exact ih _ st' 0 rowsSaved' (idx + 1) _ _
          · simp only [hrot, if_false]
            rw [updAfterEmit_append, Bool.and_eq_true]
            refine ⟨?_, ?_⟩
            · exact updAfterEmit_processChunk ce version columns te repl curPath _ st
                brs rowsSaved em
            · exact ih _ st' brs' rowsSaved' idx curPath _

/-- C3: in every sync run (immediate and batched mode alike), every
checkpoint update in the observable effect sequence refers to a record that
was emitted (to the output boundary or to its batch file) strictly earlier
in the sequence; no checkpoint mutation precedes its record's emission. -/
theorem record_emitted_before_checkpoint_update (config : Config)
    (cursor : List (List Value)) (ce : CatalogEntry) (st : State)
    (select_sql : String) (columns : List String) (stream_version : Int)
    (te : String) (basePath : String) :
    updAfterEmit (sync_query config cursor ce st select_sql columns stream_version
      te basePath).1 [] = true := by
  unfold sync_query
  by_cases hb : config.batch_messages = false
  · simp only [hb, if_true]
    cases hfin : (immLoop ce stream_version columns te ce.replicationMethod cursor st 0).2 with
    | none =>
      simp only
      exact updAfterEmit_immLoop ce stream_version columns te ce.replicationMethod
        cursor st 0 []
    | some stF =>
      simp only
      rw [updAfterEmit_append, Bool.and_eq_true]
      refine ⟨?_, rfl⟩
      exact updAfterEmit_immLoop ce stream_version columns te ce.replicationMethod
        cursor st 0 []
  · simp only [hb, if_false]
    cases hfin : (batchLoop ce stream_version columns te ce.replicationMethod basePath
        (config.batch_cursor_size.getD 500000)
        (config.batch_size.getD (config.batch_cursor_size.getD 500000 * 2))
        (cursor.length + 1) cursor st 0 0 1
        (get_new_batch_file_path basePath ce.table 0)).2 with
    | none =>
      simp only [updAfterEmit]
      exact updAfterEmit_batchLoop ce stream_version columns te ce.replicationMethod
        basePath _ _ (cursor.length + 1) cursor st 0 0 1 _ []
    | some stF =>
      simp only [updAfterEmit]
      rw [updAfterEmit_append, Bool.and_eq_true]
      refine ⟨?_, rfl⟩
      exact updAfterEmit_batchLoop ce stream_version columns te ce.replicationMethod
        basePath _ _ (cursor.length + 1) cursor st 0 0 1 _ []

/-! ### C8: immediate-mode message shape -/

theorem immLoop_shape (ce : CatalogEntry) (version : Int) (columns : List String)
    (te : String) (repl : Option String)
    (hupd : ∀ rm s, (update_bookmark rm repl ce s).isSome) :
    ∀ (rows : List (List Value)) (st : State) (k : Nat),
      (∀ row ∈ rows, (row_to_singer_record ce version row columns te).isSome) →
      ((immLoop ce version columns te repl rows st k).1.filterMap immShape =
          immShapeSpec rows.length k)
      ∧ (recordsOf (immLoop ce version columns te repl rows st k).1 =
          rows.filterMap (fun row => row_to_singer_record ce version row columns te))
      ∧ (immLoop ce version columns te repl rows st k).2.isSome := by
  intro rows
  induction rows with
  | nil =>
    intro st k _
    exact ⟨rfl, rfl, rfl⟩
  | cons row rest ih =>
    intro st k hrows
    obtain ⟨rm, hrm⟩ := Option.isSome_iff_exists.mp (hrows row (by simp))
    obtain ⟨st', hst'⟩ := Option.isSome_iff_exists.mp (hupd rm st)
    have ihr := ih st' (k + 1) (fun r hr => hrows r (by simp [hr]))
    simp only [immLoop, hrm, hst']
    by_cases hsnap : (k + 1) % 1000 = 0
    · simp only [hsnap, if_true, List.length_cons, immShapeSpec, recordsOf,
        List.filterMap_cons, List.filterMap_append, immShape, hrm]
      refine ⟨?_, ?_, ?_⟩
      · simp [ihr.1, immShape]
      · have := ihr.2.1
        simp only [recordsOf] at this
        simp [this]
      · exact ihr.2.2
    · simp only [hsnap, if_false, List.length_cons, immShapeSpec, recordsOf,
        List.filterMap_cons, immShape, hrm]
      refine ⟨?_, ?_, ?_⟩
      · simp [ihr.1, immShape]
      · have := ihr.2.1
        simp only [recordsOf] at this
        simp [this]
      · exact ihr.2.2

/-- C8: in immediate mode the observable message stream is one Record per
source row in cursor order, with a checkpoint snapshot emitted exactly when
the cumulative record count is a positive multiple of 1000, plus one final
snapshot after cursor exhaustion. -/
theorem immediate_mode_message_shape (config : Config) (cursor : List (List Value))
    (ce : CatalogEntry) (st : State) (select_sql : String) (columns : List String)
    (stream_version : Int) (te : String) (basePath : String)
    (hb : config.batch_messages = false)
    (hrows : ∀ row ∈ cursor,
      (row_to_singer_record ce stream_version row columns te).isSome)
    (hupd : ∀ rm s, (update_bookmark rm ce.replicationMethod ce s).isSome) :
    ((sync_query config cursor ce st select_sql columns stream_version te
        basePath).1.filterMap immShape =
        immShapeSpec cursor.length 0 ++ [EShape.snapshot])
    ∧ (recordsOf (sync_query config cursor ce st select_sql columns stream_version te
        basePath).1 =
        cursor.filterMap (fun row => row_to_singer_record ce stream_version row columns te)) := by
  obtain ⟨hshape, hrec, hfin⟩ := immLoop_shape ce stream_version columns te
    ce.replicationMethod hupd cursor st 0 hrows
  obtain ⟨stF, hstF⟩ := Option.isSome_iff_exists.mp hfin
  unfold sync_query
  simp only [hb, if_true, hstF]
  constructor
  · simp [List.filterMap_append, hshape, immShape]
  · simp only [recordsOf, List.filterMap_append]
    simp only [recordsOf] at hrec
    simp [hrec, recordsOf]

/-- Sample catalog entry with one integer column `a` and no replication
method configured. -/
def ceOneCol : CatalogEntry :=
  { stream := "s", table := "t", databaseName := "d", tapStreamId := "d-t",
    schemaProps := [("a", ⟨["integer"], Option.none⟩)],
    keyProperties := [], replicationMethod := Option.none }

/-- A three-row cursor over the single column `a`. -/
def rows3 : List (List Value) :=
  [[Value.vInt 1], [Value.vInt 2], [Value.vInt 3]]

/-- Witness for C8: a 3-row immediate-mode sync emits record, record,
record, snapshot — three Records in source order and exactly one
checkpoint snapshot at stream end. -/
theorem immediate_mode_message_shape_witness :
    (∀ row ∈ rows3, (row_to_singer_record ceOneCol 1 row ["a"] "te").isSome) ∧
    ((sync_query ⟨false, Option.none, Option.none⟩ rows3 ceOneCol ⟨[]⟩ "q" ["a"] 1 "te"
        "base").1.filterMap immShape =
      [EShape.record, EShape.record, EShape.record, EShape.snapshot]) := by
  refine ⟨by decide, ?_⟩
  have h := (immediate_mode_message_shape ⟨false, Option.none, Option.none⟩ rows3
    ceOneCol ⟨[]⟩ "q" ["a"] 1 "te" "base" rfl (by decide) (fun rm s => rfl)).1
  simpa using h

/-! ### C10: batched mode with an empty cursor -/

/-- C10: in batched mode a cursor yielding zero rows still creates the
table subdirectory and opens then closes the index-0 batch file (leaving an
empty file), emits no batch descriptor and no Record, and emits exactly one
final checkpoint snapshot with the state unchanged. -/
theorem batched_empty_cursor (config : Config) (ce : CatalogEntry) (st : State)
    (select_sql : String) (columns : List String) (stream_version : Int)
    (te : String) (basePath : String)
    (hb : config.batch_messages = true)
    (hT : config.batch_size.getD ((config.batch_cursor_size.getD 500000) * 2) ≠ 0) :
    sync_query config [] ce st select_sql columns stream_version te basePath =
      ([Event.ensureDir (batchDir basePath ce.table),
        Event.openFile (get_new_batch_file_path basePath ce.table 0),
        Event.closeFile (get_new_batch_file_path basePath ce.table 0) 0,
        Event.emitState st], some st) := by
  unfold sync_query
  rw [hb]
  simp only [Bool.true_eq_false, if_false]
  rw [batchLoop]
  rw [if_pos (by simp)]
  rw [if_neg hT, if_neg (by simp)]
  rfl

/-- Witness for C10 at a concrete configuration. -/
theorem batched_empty_cursor_witness :
    ((⟨true, Option.none, Option.none⟩ : Config).batch_messages = true) ∧
    ((⟨true, Option.none, Option.none⟩ : Config).batch_size.getD
      ((((⟨true, Option.none, Option.none⟩ : Config).batch_cursor_size).getD 500000) * 2) ≠ 0) ∧
    sync_query ⟨true, Option.none, Option.none⟩ [] ceOneCol ⟨[]⟩ "q" ["a"] 1 "te" "base" =
      ([Event.ensureDir "base/t", Event.openFile "base/t/t_000000.jsonl",
        Event.closeFile "base/t/t_000000.jsonl" 0, Event.emitState ⟨[]⟩], some ⟨[]⟩) := by
  refine ⟨rfl, by decide, ?_⟩
  have h := batched_empty_cursor ⟨true, Option.none, Option.none⟩ ceOneCol ⟨[]⟩ "q" ["a"]
    1 "te" "base" rfl (by decide)
  simpa using h

/-! ### C1: batch rotation -/

theorem batchSizes_append (a b : List Event) :
    batchSizes (a ++ b) = batchSizes a ++ batchSizes b := by
  simp [batchSizes]

theorem fileCounts_append (a b : List Event) :
    fileCounts (a ++ b) = fileCounts a ++ fileCounts b := by
  simp [fileCounts]

theorem processChunk_spec (ce : CatalogEntry) (version : Int) (columns : List String)
    (te : String) (repl : Option String) (path : String)
    (hupd : ∀ rm s, (update_bookmark rm repl ce s).isSome) :
    ∀ (chunk : List (List Value)) (st : State) (brs rowsSaved : Nat),
      (∀ row ∈ chunk, (row_to_singer_record ce version row columns te).isSome) →
      (∃ st', (processChunk ce version columns te repl path chunk st brs rowsSaved).2 =
          some (st', brs + chunk.length, rowsSaved + chunk.length))
      ∧ batchSizes (processChunk ce version columns te repl path chunk st brs
          rowsSaved).1 = []
      ∧ fileCounts (processChunk ce version columns te repl path chunk st brs
          rowsSaved).1 = [] := by
  intro chunk
  induction chunk with
  | nil =>
    intro st brs rowsSaved _
    exact ⟨⟨st, rfl⟩, rfl, rfl⟩
  | cons row rest ih =>
    intro st brs rowsSaved hrows
    obtain ⟨rm, hrm⟩ := Option.isSome_iff_exists.mp (hrows row (by simp))
    obtain ⟨st1, hst1⟩ := Option.isSome_iff_exists.mp (hupd rm st)
    obtain ⟨⟨st', hst'⟩, hbs, hfc⟩ := ih st1 (brs + 1) (rowsSaved + 1)
      (fun r hr => hrows r (by simp [hr]))
    simp only [processChunk, hrm, hst1]
    refine ⟨⟨st', ?_⟩, ?_, ?_⟩
    · rw [hst']
      simp only [List.length_cons, Option.some.injEq, Prod.mk.injEq]
      exact ⟨trivial, by omega, by omega⟩
    · simpa [batchSizes] using hbs
    · simpa [fileCounts] using hfc

theorem batchLoop_exit_spec (ce : CatalogEntry) (version : Int) (columns : List String)
    (te : String) (repl : Option String) (basePath : String)
    (chunkSize T fuel : Nat) (remaining : List (List Value)) (st : State)
    (brs rowsSaved idx : Nat) (curPath : String)
    (hT : 0 < T) (hbrs : brs < T) (hrem : remaining.take chunkSize = []) :
    batchSizes (batchLoop ce version columns te repl basePath chunkSize T (fuel + 1)
        remaining st brs rowsSaved idx curPath).1 = (if brs = 0 then [] else [brs])
    ∧ fileCounts (batchLoop ce version columns te repl basePath chunkSize T (fuel + 1)
        remaining st brs rowsSaved idx curPath).1 = [brs]
    ∧ (batchLoop ce version columns te repl basePath chunkSize T (fuel + 1)
        remaining st brs rowsSaved idx curPath).2 = some st := by
  rw [batchLoop, if_pos hrem, if_neg (Nat.pos_iff_ne_zero.mp hT)]
  rw [Nat.mod_eq_of_lt hbrs]
  by_cases hz : brs = 0
  · rw [if_neg (by simp [hz])]
    simp [batchSizes, fileCounts, hz]
  · rw [if_pos hz]
    simp [batchSizes, fileCounts, hz]

theorem batchLoop_aligned (ce : CatalogEntry) (version : Int) (columns : List String)
    (te : String) (repl : Option String) (basePath : String) (chunkSize T : Nat)
    (hC : 0 < chunkSize) (hT : 0 < T) (hdvd : chunkSize ∣ T)
    (hupd : ∀ rm s, (update_bookmark rm repl ce s).isSome) :
    ∀ (fuel : Nat) (remaining : List (List Value)) (st : State) (brs rowsSaved idx : Nat)
      (curPath : String),
      remaining.length < fuel →
      (∀ row ∈ remaining, (row_to_singer_record ce version row columns te).isSome) →
      brs < T → (chunkSize ∣ brs ∨ remaining = []) →
      batchSizes (batchLoop ce version columns te repl basePath chunkSize T fuel
          remaining st brs rowsSaved idx curPath).1 =
        List.replicate ((brs + remaining.length) / T) T ++
          (if (brs + remaining.length) % T = 0 then []
           else [(brs + remaining.length) % T])
      ∧ fileCounts (batchLoop ce version columns te repl basePath chunkSize T fuel
          remaining st brs rowsSaved idx curPath).1 =
        List.replicate ((brs + remaining.length) / T) T ++ [(brs + remaining.length) % T]
      ∧ (batchLoop ce version columns te repl basePath chunkSize T fuel
          remaining st brs rowsSaved idx curPath).2.isSome := by
  intro fuel
  induction fuel with
  | zero =>
    intro remaining st brs rowsSaved idx curPath hlen
    omega
  | succ fuel ih =>
    intro remaining st brs rowsSaved idx curPath hlen hrows hbrs hinv
    by_cases hrem : remaining.take chunkSize = []
    · have hremnil : remaining = [] := by
        cases remaining with
        | nil => rfl
        | cons r rs =>
          cases chunkSize with
          | zero => omega
          | succ cm => rw [List.take_succ_cons] at hrem; cases hrem
      subst hremnil
      obtain ⟨h1, h2, h3⟩ := batchLoop_exit_spec ce version columns te repl basePath
        chunkSize T fuel [] st brs rowsSaved idx curPath hT hbrs hrem
      have hd : brs / T = 0 := Nat.div_eq_of_lt hbrs
      have hm : brs % T = brs := Nat.mod_eq_of_lt hbrs
      refine ⟨?_, ?_, ?_⟩
      · rw [h1]
        simp [hd, hm]
      · rw [h2]
        simp [hd, hm]
      · rw [h3]
        rfl
    · -- a nonempty chunk was fetched
      have hCd : chunkSize ∣ brs := by
        rcases hinv with h | h
        · exact h
        · exact absurd (by simp [h]) hrem
      have hne : remaining ≠ [] := fun h => hrem (by simp [h])
      have hlpos : 0 < remaining.length := List.length_pos.mpr hne
      obtain ⟨⟨st1, hst1⟩, hbs0, hfc0⟩ := processChunk_spec ce version columns te repl
        curPath hupd (remaining.take chunkSize) st brs rowsSaved
        (fun r hr => hrows r (List.take_subset _ _ hr))
      have hm_min : (remaining.take chunkSize).length = min chunkSize remaining.length := by
        simp
      set m := (remaining.take chunkSize).length with hmdef
      have hm_pos : 0 < m := List.length_pos.mpr hrem
      have hm_le_c : m ≤ chunkSize := by omega
      have hm_le_r : m ≤ remaining.length := by omega
      have hstep : brs + chunkSize ≤ T := by
        obtain ⟨a, ha⟩ := hCd
        obtain ⟨b, hb⟩ := hdvd
        have hab : a < b := by
          by_contra hle
          push_neg at hle
          have : T ≤ brs := by
            rw [ha, hb]
            exact Nat.mul_le_mul_left _ hle
          omega
        calc brs + chunkSize = chunkSize * (a + 1) := by rw [ha]; ring
          _ ≤ chunkSize * b := Nat.mul_le_mul_left _ hab
          _ = T := hb.symm
      have hdroplen : (remaining.drop chunkSize).length < fuel := by
        simp only [List.length_drop]
        omega
      have hdroprows : ∀ row ∈ remaining.drop chunkSize,
          (row_to_singer_record ce version row columns te).isSome :=
        fun r hr => hrows r (List.drop_subset _ _ hr)
      have hdl : (remaining.drop chunkSize).length = remaining.length - chunkSize := by
        simp
      rw [batchLoop, if_neg hrem]
      simp only [hst1]
      rw [if_neg (Nat.pos_iff_ne_zero.mp hT)]
      by_cases hrot : (brs + m) % T = 0
      · -- rotation: the counter hit exactly T
        have hEq : brs + m = T :=
          Nat.le_antisymm (by omega)
            (Nat.le_of_dvd (by omega) (Nat.dvd_of_mod_eq_zero hrot))
        rw [if_pos hrot]
        obtain ⟨ihbs, ihfc, ihfin⟩ := ih (remaining.drop chunkSize) st1 0 (rowsSaved + m)
          (idx + 1) (get_new_batch_file_path basePath ce.table idx) hdroplen hdroprows hT
          (Or.inl (dvd_zero _))
        have hsum : brs + remaining.length = (remaining.length - chunkSize) + T := by
          omega
        refine ⟨?_, ?_, ?_⟩
        · rw [List.append_assoc, batchSizes_append, batchSizes_append, hbs0, hsum,
            Nat.add_div_right _ hT, Nat.add_mod_right]
          rw [ihbs, hdl]
          simp [batchSizes, List.replicate_succ]
        · rw [List.append_assoc, fileCounts_append, fileCounts_append, hfc0, hsum,
            Nat.add_div_right _ hT, Nat.add_mod_right]
          rw [ihfc, hdl]
          simp [fileCounts, List.replicate_succ, hEq]
        · simpa using ihfin
      · -- no rotation: the counter is strictly between multiples of T
        have hlt : brs + m < T := by
          rcases Nat.lt_or_ge (brs + m) T with h | h
          · exact h
          · exfalso
            have : brs + m = T := by omega
            exact hrot (by simp [this])
        have hinv' : chunkSize ∣ (brs + m) ∨ remaining.drop chunkSize = [] := by
          by_cases hcm : chunkSize ≤ remaining.length
          · left
            have hmc : m = chunkSize := by omega
            rw [hmc]
            exact Nat.dvd_add hCd dvd_rfl
          · right
            exact List.drop_eq_nil_of_le (by omega)
        rw [if_neg hrot]
        obtain ⟨ihbs, ihfc, ihfin⟩ := ih (remaining.drop chunkSize) st1 (brs + m)
          (rowsSaved + m) idx curPath hdroplen hdroprows hlt hinv'
        have hsum : brs + remaining.length = (brs + m) + (remaining.length - chunkSize) := by
          omega
        refine ⟨?_, ?_, ?_⟩
        · rw [batchSizes_append, hbs0, hsum, ihbs, hdl]
          simp
        · rw [fileCounts_append, hfc0, hsum, ihfc, hdl]
          simp
        · simpa using ihfin

theorem ceil_div_identity (L T : Nat) (hT : 0 < T) :
    L / T + (if L % T = 0 then 0 else 1) = (L + T - 1) / T := by
  have hmlt : L % T < T := Nat.mod_lt _ hT
  have hdm : T * (L / T) + L % T = L := Nat.div_add_mod L T
  by_cases hz : L % T = 0
  · rw [if_pos hz]
    have h1 : L + T - 1 = T * (L / T) + (T - 1) := by omega
    have h2 : (L + T - 1) / T = L / T + (T - 1) / T := by
      rw [h1, Nat.mul_add_div hT]
    rw [h2, Nat.div_eq_of_lt (show T - 1 < T by omega)]
  · rw [if_neg hz]
    have hTq : T * (L / T + 1) = T * (L / T) + T := by ring
    have h1 : L + T - 1 = T * (L / T + 1) + (L % T - 1) := by omega
    have h2 : (L + T - 1) / T = (L / T + 1) + (L % T - 1) / T := by
      rw [h1, Nat.mul_add_div hT]
    rw [h2, Nat.div_eq_of_lt (show L % T - 1 < T by omega)]

/-- C1 counterexample: 3 rows with `batch_cursor_size = 3` and
`batch_size = 2`.  The rotation check only runs at chunk boundaries, so the
single chunk of 3 rows never trips it: one file receives all 3 rows
(exceeding the threshold 2) and a single batch descriptor reporting 3 rows
is emitted, instead of the claimed `ceil(3/2) = 2` files of at most 2
rows. -/
theorem batched_rotation_counterexample :
    batchSizes (sync_query ⟨true, some 3, some 2⟩ rows3 ceOneCol ⟨[]⟩ "q" ["a"] 1 "te"
        "base").1 = [3]
    ∧ fileCounts (sync_query ⟨true, some 3, some 2⟩ rows3 ceOneCol ⟨[]⟩ "q" ["a"] 1 "te"
        "base").1 = [3]
    ∧ ¬((fileCounts (sync_query ⟨true, some 3, some 2⟩ rows3 ceOneCol ⟨[]⟩ "q" ["a"] 1
          "te" "base").1).length = (3 + 2 - 1) / 2
        ∧ ∀ c ∈ fileCounts (sync_query ⟨true, some 3, some 2⟩ rows3 ceOneCol ⟨[]⟩ "q"
            ["a"] 1 "te" "base").1, c ≤ 2) := by
  refine ⟨by decide, by decide, by decide⟩

/-- C1 (amended): when `batch_cursor_size` divides `batch_size` (and both
are positive), writing `R` rows emits `ceil(R / T)` batch descriptors, no
batch file ever receives more than `T` rows, each non-final descriptor (and
file) holds exactly `T` rows, and the final descriptor reports `R mod T`
rows (`T` when `T` divides `R`, in which case one additional empty,
descriptor-less file is left behind).  For chunk sizes that do not divide
the threshold the rotation check can be missed, as the counterexample
shows. -/
theorem batched_rotation_aligned (chunkSize T : Nat) (cursor : List (List Value))
    (ce : CatalogEntry) (st : State) (select_sql : String) (columns : List String)
    (stream_version : Int) (te : String) (basePath : String)
    (hC : 0 < chunkSize) (hT : 0 < T) (hdvd : chunkSize ∣ T)
    (hrows : ∀ row ∈ cursor,
      (row_to_singer_record ce stream_version row columns te).isSome)
    (hupd : ∀ rm s, (update_bookmark rm ce.replicationMethod ce s).isSome) :
    batchSizes (sync_query ⟨true, some chunkSize, some T⟩ cursor ce st select_sql
        columns stream_version te basePath).1 =
      List.replicate (cursor.length / T) T ++
        (if cursor.length % T = 0 then [] else [cursor.length % T])
    ∧ fileCounts (sync_query ⟨true, some chunkSize, some T⟩ cursor ce st select_sql
        columns stream_version te basePath).1 =
      List.replicate (cursor.length / T) T ++ [cursor.length % T]
    ∧ (batchSizes (sync_query ⟨true, some chunkSize, some T⟩ cursor ce st select_sql
        columns stream_version te basePath).1).length = (cursor.length + T - 1) / T
    ∧ (∀ c ∈ fileCounts (sync_query ⟨true, some chunkSize, some T⟩ cursor ce st
        select_sql columns stream_version te basePath).1, c ≤ T) := by
  obtain ⟨hbs, hfc, hfin⟩ := batchLoop_aligned ce stream_version columns te
    ce.replicationMethod basePath chunkSize T hC hT hdvd hupd (cursor.length + 1) cursor
    st 0 0 1 (get_new_batch_file_path basePath ce.table 0) (by omega) hrows hT
    (Or.inl (dvd_zero _))
  simp only [Nat.zero_add] at hbs hfc
  obtain ⟨stF, hstF⟩ := Option.isSome_iff_exists.mp hfin
  have htr : batchSizes (sync_query ⟨true, some chunkSize, some T⟩ cursor ce st
        select_sql columns stream_version te basePath).1 =
      List.replicate (cursor.length / T) T ++
        (if cursor.length % T = 0 then [] else [cursor.length % T]) := by
    unfold sync_query
    simp only [Option.getD_some, hstF]
    simp [batchSizes_append, batchSizes, hbs]
    rw [← hbs]
    simp [batchSizes]
  have htf : fileCounts (sync_query ⟨true, some chunkSize, some T⟩ cursor ce st
        select_sql columns stream_version te basePath).1 =
      List.replicate (cursor.length / T) T ++ [cursor.length % T] := by
    unfold sync_query
    simp only [Option.getD_some, hstF]
    simp [fileCounts_append, fileCounts, hfc]
    rw [← hfc]
    simp [fileCounts]
  refine ⟨htr, htf, ?_, ?_⟩
  · rw [htr]
    have hid := ceil_div_identity cursor.length T hT
    by_cases hz : cursor.length % T = 0
    · simp only [hz, if_pos rfl, Nat.add_zero] at hid ⊢
      simpa using hid
    · simp only [if_neg hz] at hid ⊢
      simp only [List.length_append, List.length_replicate, List.length_cons,
        List.length_nil]
      omega
  · rw [htf]
    intro c hc
    rcases List.mem_append.mp hc with h | h
    · rw [List.eq_of_mem_replicate h]
    · have : c = cursor.length % T := by simpa using h
      subst this
      exact Nat.le_of_lt (Nat.mod_lt _ hT)

/-- Witness for C1 (amended): 3 rows, `batch_cursor_size = 1`,
`batch_size = 2` — two descriptors `[2, 1]` and two files holding
`[2, 1]` rows. -/
theorem batched_rotation_aligned_witness :
    (0 < 1 ∧ 0 < 2 ∧ (1 : Nat) ∣ 2) ∧
    (∀ row ∈ rows3, (row_to_singer_record ceOneCol 1 row ["a"] "te").isSome) ∧
    batchSizes (sync_query ⟨true, some 1, some 2⟩ rows3 ceOneCol ⟨[]⟩ "q" ["a"] 1 "te"
        "base").1 = [2, 1] ∧
    fileCounts (sync_query ⟨true, some 1, some 2⟩ rows3 ceOneCol ⟨[]⟩ "q" ["a"] 1 "te"
        "base").1 = [2, 1] := by
  refine ⟨by decide, by decide, ?_, ?_⟩
  · have h := (batched_rotation_aligned 1 2 rows3 ceOneCol ⟨[]⟩ "q" ["a"] 1 "te" "base"
      (by decide) (by decide) (by decide) (by decide) (fun rm s => rfl)).1
    simpa using h
  · have h := (batched_rotation_aligned 1 2 rows3 ceOneCol ⟨[]⟩ "q" ["a"] 1 "te" "base"
      (by decide) (by decide) (by decide) (by decide) (fun rm s => rfl)).2.1
    simpa using h

end TapMySql
